import Mathlib

/-!
Verification development for the EPB energy integration.

The definitions below are a shallow embedding of the repository's Python
code.  Python floats are modelled as rationals, Python dicts keyed by
account-id strings as association lists, and a raised exception that the
code does not catch as the `none` of an `Option` result.
-/

namespace EPB

/-! ## Association-list model of Python dicts keyed by strings -/

def dget? {α : Type} : List (String × α) → String → Option α
  | [], _ => none
  | (k, v) :: rest, key => if k = key then some v else dget? rest key

def dset {α : Type} : List (String × α) → String → α → List (String × α)
  | [], key, val => [(key, val)]
  | (k, v) :: rest, key, val =>
    if k = key then (k, val) :: rest else (k, v) :: dset rest key val

theorem dget?_dset_self {α : Type} (d : List (String × α)) (k : String) (v : α) :
    dget? (dset d k v) k = some v := by
  induction d with
  | nil => simp [dget?, dset]
  | cons hd tl ih =>
    obtain ⟨k0, v0⟩ := hd
    by_cases hk : k0 = k
    · simp [dget?, dset, hk]
    · simp [dget?, dset, hk, ih]

theorem dget?_dset_ne {α : Type} (d : List (String × α)) (k k' : String) (v : α)
    (h : k ≠ k') : dget? (dset d k v) k' = dget? d k' := by
  induction d with
  | nil => simp [dget?, dset, h]
  | cons hd tl ih =>
    obtain ⟨k0, v0⟩ := hd
    by_cases hk : k0 = k
    · subst hk; simp [dget?, dset, h]
    · simp [dget?, dset, hk, ih]

/-! ## Data model (coordinator.py)

`RawSample` is the normalized usage record returned by
`EPBApiClient.get_usage_data`; `PublishedReading` is one entry of the map
returned by `EPBUpdateCoordinator._async_update_data`
(keys `kwh` = accumulated + current, `raw_kwh`, `cost`). -/

structure RawSample where
  kwh : ℚ
  cost : ℚ
  daily_kwh : ℚ
  daily_cost : ℚ
deriving DecidableEq

structure PublishedReading where
  kwh : ℚ
  raw_kwh : ℚ
  cost : ℚ
deriving DecidableEq

/-- Mutable coordinator attributes: `_prev_kwh_values`, `_accumulated_kwh`,
`_last_hour` (all Python dicts keyed by account id) and `_current_day`. -/
structure CoordState where
  prevKwh : List (String × ℚ)
  accumulatedKwh : List (String × ℚ)
  lastHour : List (String × Nat)
  currentDay : Nat
deriving DecidableEq

/-- One account link as consumed by the coordinator: the
`power_account.account_id` string and the optional `premise.gis_id`. -/
structure AccountLink where
  account_id : String
  gis_id : Option Int
deriving DecidableEq

/-- Per-account body of the loop in
`EPBUpdateCoordinator._async_update_data` (coordinator.py lines 69-121),
for one account id and one fetched sample at poll hour `H`.  A `none`
result is a `KeyError` escaping the loop (the code indexes
`self._accumulated_kwh[account_id]` and `self._last_hour[account_id]`
directly, which raises when the key is absent). -/
def processAccount (st : CoordState) (H : Nat) (id : String) (s : RawSample) :
    Option (CoordState × PublishedReading) :=
  let currentKwh := s.kwh
  let st1 :=
    if (dget? st.prevKwh id).isNone then
      { st with
        prevKwh := dset st.prevKwh id currentKwh
        accumulatedKwh := dset st.accumulatedKwh id 0
        lastHour := dset st.lastHour id H }
    else st
  match dget? st1.lastHour id with
  | none => none
  | some lastH =>
    let st2? : Option CoordState :=
      if H ≠ lastH then
        match dget? st1.prevKwh id with
        | none => none
        | some prevKwh =>
          if currentKwh < prevKwh ∧ prevKwh > (1 : ℚ) / 10 then
            let percentageDrop := 1 - currentKwh / prevKwh
            if percentageDrop > (1 : ℚ) / 2 then
              match dget? st1.accumulatedKwh id with
              | none => none
              | some acc =>
                some { st1 with
                  accumulatedKwh := dset st1.accumulatedKwh id (acc + prevKwh)
                  lastHour := dset st1.lastHour id H }
            else some { st1 with lastHour := dset st1.lastHour id H }
          else some { st1 with lastHour := dset st1.lastHour id H }
      else some st1
    match st2? with
    | none => none
    | some st2 =>
      match dget? st2.accumulatedKwh id with
      | none => none
      | some acc =>
        some ({ st2 with prevKwh := dset st2.prevKwh id currentKwh },
          ⟨acc + currentKwh, currentKwh, s.cost⟩)

/-- The per-link loop of `_async_update_data` (coordinator.py lines 58-129):
links with a falsy (empty) `account_id` are skipped; the others are fetched
and ingested, and their reading is stored in the `data` dict. -/
def processLinks (H : Nat) (fetch : AccountLink → RawSample) :
    List AccountLink → CoordState → List (String × PublishedReading) →
    Option (CoordState × List (String × PublishedReading))
  | [], st, data => some (st, data)
  | link :: rest, st, data =>
    if link.account_id = "" then processLinks H fetch rest st data
    else
      match processAccount st H link.account_id (fetch link) with
      | none => none
      | some (st', r) =>
        processLinks H fetch rest st' (dset data link.account_id r)

/-- One poll cycle of `_async_update_data` (coordinator.py lines 41-131) at
current day `D` and hour `H`: the day-rollover check first clears the whole
`_accumulated_kwh` dict and updates `_current_day`, then every account link
is processed in order.  `fetch` stands for `client.get_usage_data`. -/
def pollCycle (st : CoordState) (D H : Nat) (links : List AccountLink)
    (fetch : AccountLink → RawSample) :
    Option (CoordState × List (String × PublishedReading)) :=
  let st1 :=
    if D ≠ st.currentDay then
      { st with accumulatedKwh := [], currentDay := D }
    else st
  processLinks H fetch links st1 []

/-- Repeated within-day ingestion of samples for a single account: the
sequence of `processAccount` steps an account undergoes over successive
poll cycles with no day rollover in between, together with the published
readings. -/
def ingestSeq (id : String) :
    CoordState → List (Nat × RawSample) →
    Option (CoordState × List PublishedReading)
  | st, [] => some (st, [])
  | st, (H, s) :: rest =>
    match processAccount st H id s with
    | none => none
    | some (st', r) =>
      match ingestSeq id st' rest with
      | none => none
      | some (st'', rs) => some (st'', r :: rs)

/-! ## Characterization lemmas for `processAccount` -/

/-- First-ever sample for an account (no entry in `_prev_kwh_values`):
baseline state is created, no reset detection runs, the reading carries
the raw sample value. -/
theorem processAccount_fresh (st : CoordState) (H : Nat) (id : String) (s : RawSample)
    (hp : dget? st.prevKwh id = none) :
    processAccount st H id s = some
      ({ prevKwh := dset (dset st.prevKwh id s.kwh) id s.kwh
         accumulatedKwh := dset st.accumulatedKwh id 0
         lastHour := dset st.lastHour id H
         currentDay := st.currentDay },
       ⟨s.kwh, s.kwh, s.cost⟩) := by
  simp [processAccount, hp, dget?_dset_self]

/-- An account that is tracked (all three per-account dicts have an entry)
is processed without an exception, folding `prev` into the accumulator
exactly when the hour advanced, the sample dropped below the previous
value, the previous value clears the noise guard, and the relative drop
exceeds one half. -/
theorem processAccount_tracked (st : CoordState) (H : Nat) (id : String) (s : RawSample)
    (p a : ℚ) (h : Nat)
    (hp : dget? st.prevKwh id = some p)
    (ha : dget? st.accumulatedKwh id = some a)
    (hh : dget? st.lastHour id = some h) :
    processAccount st H id s = some
      ({ prevKwh := dset st.prevKwh id s.kwh
         accumulatedKwh :=
           if H ≠ h ∧ s.kwh < p ∧ p > (1 : ℚ) / 10 ∧ 1 - s.kwh / p > (1 : ℚ) / 2 then
             dset st.accumulatedKwh id (a + p)
           else st.accumulatedKwh
         lastHour := if H ≠ h then dset st.lastHour id H else st.lastHour
         currentDay := st.currentDay },
       ⟨(if H ≠ h ∧ s.kwh < p ∧ p > (1 : ℚ) / 10 ∧ 1 - s.kwh / p > (1 : ℚ) / 2 then
           a + p
         else a) + s.kwh,
        s.kwh, s.cost⟩) := by
  by_cases hH : H = h
  · subst hH
    simp [processAccount, hp, ha, hh]
  · by_cases hc : s.kwh < p ∧ p > (1 : ℚ) / 10
    · by_cases hd : 1 - s.kwh / p > (1 : ℚ) / 2
      · have hcond : s.kwh < p ∧ p > (1 : ℚ) / 10 ∧ 1 - s.kwh / p > (1 : ℚ) / 2 :=
          ⟨hc.1, hc.2, hd⟩
        simp [processAccount, hp, ha, hh, hH, hc.1, hc.2, hd, dget?_dset_self, -one_div]
      · have hnc : ¬(s.kwh < p ∧ p > (1 : ℚ) / 10 ∧ 1 - s.kwh / p > (1 : ℚ) / 2) :=
          fun hx => hd hx.2.2
        simp [processAccount, hp, ha, hh, hH, hc.1, hc.2, hd, hnc, -one_div]
    · have hnc : ¬(s.kwh < p ∧ p > (1 : ℚ) / 10 ∧ 1 - s.kwh / p > (1 : ℚ) / 2) :=
        fun hx => hc ⟨hx.1, hx.2.1⟩
      simp [processAccount, hp, ha, hh, hH, hc, hnc, -one_div]

/-- If the account has a previous value but no `_last_hour` entry, the
direct index raises: the loop body fails. -/
theorem processAccount_none_of_lastHour_none (st : CoordState) (H : Nat) (id : String)
    (s : RawSample) (p : ℚ)
    (hp : dget? st.prevKwh id = some p)
    (hh : dget? st.lastHour id = none) :
    processAccount st H id s = none := by
  simp [processAccount, hp, hh]

/-- If the account has a previous value but no `_accumulated_kwh` entry
(the situation every tracked account is in right after the day-rollover
dict clear), the direct index raises: the loop body fails. -/
theorem processAccount_none_of_acc_none (st : CoordState) (H : Nat) (id : String)
    (s : RawSample) (p : ℚ)
    (hp : dget? st.prevKwh id = some p)
    (ha : dget? st.accumulatedKwh id = none) :
    processAccount st H id s = none := by
  cases hh : dget? st.lastHour id with
  | none => simp [processAccount, hp, hh]
  | some h =>
    by_cases hH : H = h
    · subst hH; simp [processAccount, hp, ha, hh]
    · by_cases hc : s.kwh < p ∧ p > (1 : ℚ) / 10
      · by_cases hd : 1 - s.kwh / p > (1 : ℚ) / 2
        · simp [processAccount, hp, ha, hh, hH, hc.1, hc.2, hd, -one_div]
        · simp [processAccount, hp, ha, hh, hH, hc.1, hc.2, hd, -one_div]
      · simp [processAccount, hp, ha, hh, hH, hc, -one_div]

/-- A tracked account is always processed without exception; the
accumulator either stays put or grows by the previous value, and the
account stays tracked. -/
theorem tracked_step (st : CoordState) (H : Nat) (id : String) (s : RawSample)
    (p a : ℚ) (h : Nat)
    (hp : dget? st.prevKwh id = some p)
    (ha : dget? st.accumulatedKwh id = some a)
    (hh : dget? st.lastHour id = some h) :
    ∃ st' r a' h', processAccount st H id s = some (st', r) ∧
      dget? st'.prevKwh id = some s.kwh ∧
      dget? st'.accumulatedKwh id = some a' ∧
      dget? st'.lastHour id = some h' ∧
      a ≤ a' ∧ (a' = a ∨ (p > (1 : ℚ) / 10 ∧ a' = a + p)) := by
  have hmaster := processAccount_tracked st H id s p a h hp ha hh
  by_cases hcond : H ≠ h ∧ s.kwh < p ∧ p > (1 : ℚ) / 10 ∧ 1 - s.kwh / p > (1 : ℚ) / 2
  · simp only [if_pos hcond, if_pos hcond.1] at hmaster
    exact ⟨_, _, a + p, H, hmaster,
      dget?_dset_self st.prevKwh id s.kwh,
      dget?_dset_self st.accumulatedKwh id (a + p),
      dget?_dset_self st.lastHour id H,
      by linarith [hcond.2.2.1], Or.inr ⟨hcond.2.2.1, rfl⟩⟩
  · simp only [if_neg hcond] at hmaster
    by_cases hH : H ≠ h
    · simp only [if_pos hH] at hmaster
      exact ⟨_, _, a, H, hmaster,
        dget?_dset_self st.prevKwh id s.kwh, ha,
        dget?_dset_self st.lastHour id H, le_refl a, Or.inl rfl⟩
    · simp only [if_neg hH] at hmaster
      exact ⟨_, _, a, h, hmaster,
        dget?_dset_self st.prevKwh id s.kwh, ha, hh, le_refl a, Or.inl rfl⟩

/-! ## Claim theorems: the accumulation engine -/

/-- C1: the claim says that on a poll cycle whose day differs from the
stored marker every account's accumulated value is reset to 0 and the
cycle then completes normally, publishing a reading for every tracked
account.  The code instead clears the `_accumulated_kwh` dict wholesale;
for an account that is still present in `_prev_kwh_values` the later
direct index into `_accumulated_kwh` raises `KeyError` and the cycle
fails.  This theorem evaluates the model at such an input: a single
tracked account, day marker 1, poll arriving on day 2. -/
theorem c1_day_rollover_keyerror :
    pollCycle ⟨[("A", 5)], [("A", 0)], [("A", 10)], 1⟩ 2 10
      [⟨"A", none⟩] (fun _ => ⟨6, 2, 0, 0⟩) = none := by decide

/-- C8: an account with no prior state gets `previous_kwh = sample.kwh`,
`accumulated_kwh = 0` and `last_seen_hour = H`; no reset detection runs
and the published total equals the raw sample value. -/
theorem c8_first_sample_baseline (st : CoordState) (id : String) (H : Nat) (s : RawSample)
    (hfresh : dget? st.prevKwh id = none) :
    ∃ st' r, processAccount st H id s = some (st', r) ∧
      dget? st'.prevKwh id = some s.kwh ∧
      dget? st'.accumulatedKwh id = some 0 ∧
      dget? st'.lastHour id = some H ∧
      r = ⟨s.kwh, s.kwh, s.cost⟩ := by
  refine ⟨_, _, processAccount_fresh st H id s hfresh, ?_, ?_, ?_, rfl⟩
  · exact dget?_dset_self (dset st.prevKwh id s.kwh) id s.kwh
  · exact dget?_dset_self st.accumulatedKwh id 0
  · exact dget?_dset_self st.lastHour id H

theorem c8_first_sample_baseline_witness :
    ∃ st' r,
      processAccount ⟨[], [], [], 1⟩ 7 "A" ⟨123, 4, 0, 0⟩ = some (st', r) ∧
      dget? st'.prevKwh "A" = some 123 ∧
      dget? st'.accumulatedKwh "A" = some 0 ∧
      dget? st'.lastHour "A" = some 7 ∧
      r = ⟨123, 123, 4⟩ :=
  c8_first_sample_baseline ⟨[], [], [], 1⟩ "A" 7 ⟨123, 4, 0, 0⟩ (by decide)

/-- C2: for a tracked account at an hour boundary, the accumulator grows
by the previous value exactly when `sample.kwh < previous_kwh`,
`previous_kwh > 0.1` and the relative drop exceeds one half; the hour is
recorded either way and the published total is the (possibly updated)
accumulator plus the sample. -/
theorem c2_hour_boundary_reset (st : CoordState) (H : Nat) (id : String) (s : RawSample)
    (p a : ℚ) (h : Nat)
    (hp : dget? st.prevKwh id = some p)
    (ha : dget? st.accumulatedKwh id = some a)
    (hh : dget? st.lastHour id = some h)
    (hne : h ≠ H) :
    ∃ st' r, processAccount st H id s = some (st', r) ∧
      dget? st'.accumulatedKwh id =
        some (if s.kwh < p ∧ p > (1 : ℚ) / 10 ∧ 1 - s.kwh / p > (1 : ℚ) / 2
          then a + p else a) ∧
      dget? st'.lastHour id = some H ∧
      r.kwh = (if s.kwh < p ∧ p > (1 : ℚ) / 10 ∧ 1 - s.kwh / p > (1 : ℚ) / 2
        then a + p else a) + s.kwh ∧
      r.raw_kwh = s.kwh := by
  have hH : H ≠ h := fun e => hne e.symm
  have hmaster := processAccount_tracked st H id s p a h hp ha hh
  by_cases hc : s.kwh < p ∧ p > (1 : ℚ) / 10 ∧ 1 - s.kwh / p > (1 : ℚ) / 2
  · have hcond : H ≠ h ∧ s.kwh < p ∧ p > (1 : ℚ) / 10 ∧ 1 - s.kwh / p > (1 : ℚ) / 2 :=
      ⟨hH, hc⟩
    simp only [if_pos hcond, if_pos hH] at hmaster
    refine ⟨_, _, hmaster, ?_, ?_, ?_, rfl⟩
    · rw [if_pos hc]; exact dget?_dset_self st.accumulatedKwh id (a + p)
    · exact dget?_dset_self st.lastHour id H
    · rw [if_pos hc]
  · have hcond : ¬(H ≠ h ∧ s.kwh < p ∧ p > (1 : ℚ) / 10 ∧ 1 - s.kwh / p > (1 : ℚ) / 2) :=
      fun hx => hc hx.2
    simp only [if_neg hcond, if_pos hH] at hmaster
    refine ⟨_, _, hmaster, ?_, ?_, ?_, rfl⟩
    · rw [if_neg hc]; exact ha
    · exact dget?_dset_self st.lastHour id H
    · rw [if_neg hc]

/-- Witness for C2: previous 100 and sample 40 at an hour boundary fold
100 into the accumulator (total 140); previous 100 and sample 95 do not
(total 95). -/
theorem c2_hour_boundary_reset_witness :
    (∃ st' r,
      processAccount ⟨[("A", 100)], [("A", 0)], [("A", 3)], 1⟩ 4 "A" ⟨40, 5, 0, 0⟩ =
        some (st', r) ∧
      dget? st'.accumulatedKwh "A" = some 100 ∧
      dget? st'.lastHour "A" = some 4 ∧ r.kwh = 140 ∧ r.raw_kwh = 40) ∧
    (∃ st' r,
      processAccount ⟨[("A", 100)], [("A", 0)], [("A", 3)], 1⟩ 4 "A" ⟨95, 5, 0, 0⟩ =
        some (st', r) ∧
      dget? st'.accumulatedKwh "A" = some 0 ∧
      dget? st'.lastHour "A" = some 4 ∧ r.kwh = 95 ∧ r.raw_kwh = 95) := by
  constructor
  · obtain ⟨st', r, he, h1, h2, h3, h4⟩ :=
      c2_hour_boundary_reset ⟨[("A", 100)], [("A", 0)], [("A", 3)], 1⟩ 4 "A"
        ⟨40, 5, 0, 0⟩ 100 0 3 (by decide) (by decide) (by decide) (by decide)
    dsimp only at h1 h3
    have hc : (40 : ℚ) < 100 ∧ (100 : ℚ) > 1 / 10 ∧ 1 - 40 / 100 > (1 : ℚ) / 2 := by
      norm_num
    rw [if_pos hc] at h1 h3
    refine ⟨st', r, he, ?_, h2, ?_, h4⟩
    · rw [h1]; norm_num
    · rw [h3]; norm_num
  · obtain ⟨st', r, he, h1, h2, h3, h4⟩ :=
      c2_hour_boundary_reset ⟨[("A", 100)], [("A", 0)], [("A", 3)], 1⟩ 4 "A"
        ⟨95, 5, 0, 0⟩ 100 0 3 (by decide) (by decide) (by decide) (by decide)
    dsimp only at h1 h3
    have hc : ¬((95 : ℚ) < 100 ∧ (100 : ℚ) > 1 / 10 ∧ 1 - 95 / 100 > (1 : ℚ) / 2) :=
      fun hx => absurd hx.2.2 (by norm_num)
    rw [if_neg hc] at h1 h3
    refine ⟨st', r, he, ?_, h2, ?_, h4⟩
    · exact h1
    · rw [h3]; norm_num

/-- C7: with `previous_kwh` at or below the 0.1 guard, processing at an
hour boundary succeeds, folds nothing into the accumulator, and records
the new hour, whatever the sample value is.  (In the code the drop ratio
is syntactically guarded by `prev_kwh > 0.1`, so the division is never
reached; the embedding mirrors that nesting.) -/
theorem c7_guard_below_threshold (st : CoordState) (H : Nat) (id : String) (s : RawSample)
    (p a : ℚ) (h : Nat)
    (hp : dget? st.prevKwh id = some p)
    (ha : dget? st.accumulatedKwh id = some a)
    (hh : dget? st.lastHour id = some h)
    (hple : p ≤ (1 : ℚ) / 10)
    (hne : h ≠ H) :
    ∃ st' r, processAccount st H id s = some (st', r) ∧
      dget? st'.accumulatedKwh id = some a ∧
      dget? st'.lastHour id = some H ∧
      r.kwh = a + s.kwh := by
  have hH : H ≠ h := fun e => hne e.symm
  have hmaster := processAccount_tracked st H id s p a h hp ha hh
  have hcond : ¬(H ≠ h ∧ s.kwh < p ∧ p > (1 : ℚ) / 10 ∧ 1 - s.kwh / p > (1 : ℚ) / 2) :=
    fun hx => absurd hx.2.2.1 (not_lt.mpr hple)
  simp only [if_neg hcond, if_pos hH] at hmaster
  exact ⟨_, _, hmaster, ha, dget?_dset_self st.lastHour id H, rfl⟩

/-- Witness for C7: previous 0.05 (below the guard), sample 0. -/
theorem c7_guard_below_threshold_witness :
    ∃ st' r,
      processAccount ⟨[("A", 1/20)], [("A", 2)], [("A", 3)], 1⟩ 4 "A" ⟨0, 0, 0, 0⟩ =
        some (st', r) ∧
      dget? st'.accumulatedKwh "A" = some 2 ∧
      dget? st'.lastHour "A" = some 4 ∧
      r.kwh = 2 + (0 : ℚ) :=
  c7_guard_below_threshold ⟨[("A", 1/20)], [("A", 2)], [("A", 3)], 1⟩ 4 "A"
    ⟨0, 0, 0, 0⟩ (1/20) 2 3 (by simp [dget?]) (by decide) (by decide)
    (by norm_num) (by decide)

/-- Along any within-day ingestion sequence, the accumulator of a tracked
account never decreases. -/
theorem ingestSeq_acc_mono (id : String) (steps : List (Nat × RawSample)) :
    ∀ (st : CoordState) (p a : ℚ) (h : Nat) (st' : CoordState)
      (rs : List PublishedReading),
      dget? st.prevKwh id = some p →
      dget? st.accumulatedKwh id = some a →
      dget? st.lastHour id = some h →
      ingestSeq id st steps = some (st', rs) →
      ∃ a', dget? st'.accumulatedKwh id = some a' ∧ a ≤ a' := by
  induction steps with
  | nil =>
    intro st p a h st' rs hp ha hh hseq
    simp only [ingestSeq, Option.some.injEq, Prod.mk.injEq] at hseq
    exact ⟨a, by rw [← hseq.1]; exact ha, le_refl a⟩
  | cons step rest ih =>
    obtain ⟨H, s⟩ := step
    intro st p a h st' rs hp ha hh hseq
    obtain ⟨stm, r, a1, h1, hstep, hprev', hacc', hlast', hle, _⟩ :=
      tracked_step st H id s p a h hp ha hh
    rw [ingestSeq, hstep] at hseq
    dsimp only at hseq
    cases hrec : ingestSeq id stm rest with
    | none => rw [hrec] at hseq; cases hseq
    | some out =>
      obtain ⟨st2, rs2⟩ := out
      rw [hrec] at hseq
      simp only [Option.some.injEq, Prod.mk.injEq] at hseq
      obtain ⟨a2, hacc2, hle2⟩ :=
        ih stm s.kwh a1 h1 st2 rs2 hprev' hacc' hlast' hrec
      exact ⟨a2, by rw [← hseq.1]; exact hacc2, le_trans hle hle2⟩

/-- C3: within a day (no rollover), the accumulator starts at 0 when the
account is first seen, each step either keeps it or adds the previous
value (which the fold guard forces above 0.1), and along any ingestion
sequence it is monotonically non-decreasing. -/
theorem c3_accumulated_monotone :
    (∀ (st : CoordState) (id : String) (H : Nat) (s : RawSample)
        (st' : CoordState) (r : PublishedReading),
      dget? st.prevKwh id = none →
      processAccount st H id s = some (st', r) →
      dget? st'.accumulatedKwh id = some 0) ∧
    (∀ (st : CoordState) (id : String) (H : Nat) (s : RawSample)
        (st' : CoordState) (r : PublishedReading) (p a : ℚ) (h : Nat),
      dget? st.prevKwh id = some p →
      dget? st.accumulatedKwh id = some a →
      dget? st.lastHour id = some h →
      processAccount st H id s = some (st', r) →
      ∃ a', dget? st'.accumulatedKwh id = some a' ∧
        (a' = a ∨ (p > (1 : ℚ) / 10 ∧ a' = a + p))) ∧
    (∀ (steps : List (Nat × RawSample)) (st : CoordState) (id : String)
        (p a : ℚ) (h : Nat) (st' : CoordState) (rs : List PublishedReading),
      dget? st.prevKwh id = some p →
      dget? st.accumulatedKwh id = some a →
      dget? st.lastHour id = some h →
      ingestSeq id st steps = some (st', rs) →
      ∃ a', dget? st'.accumulatedKwh id = some a' ∧ a ≤ a') := by
  refine ⟨?_, ?_, ?_⟩
  · intro st id H s st' r hfresh hstep
    rw [processAccount_fresh st H id s hfresh] at hstep
    simp only [Option.some.injEq, Prod.mk.injEq] at hstep
    rw [← hstep.1]
    exact dget?_dset_self st.accumulatedKwh id 0
  · intro st id H s st' r p a h hp ha hh hstep
    obtain ⟨stm, rm, a1, h1, hstep', _, hacc', _, _, hshape⟩ :=
      tracked_step st H id s p a h hp ha hh
    rw [hstep'] at hstep
    simp only [Option.some.injEq, Prod.mk.injEq] at hstep
    exact ⟨a1, by rw [← hstep.1]; exact hacc', hshape⟩
  · intro steps st id p a h st' rs hp ha hh hseq
    exact ingestSeq_acc_mono id steps st p a h st' rs hp ha hh hseq

/-- Witness for C3: a tracked account with previous 100 and accumulator 0
ingests a 40-kWh sample at an hour boundary; the final accumulator is at
least the starting 0. -/
theorem c3_accumulated_monotone_witness :
    ∃ a', dget? (⟨[("A", 40)], [("A", 100)], [("A", 4)], 1⟩ :
        CoordState).accumulatedKwh "A" = some a' ∧ (0 : ℚ) ≤ a' := by
  have hm := processAccount_tracked ⟨[("A", 100)], [("A", 0)], [("A", 3)], 1⟩ 4 "A"
    ⟨40, 5, 0, 0⟩ 100 0 3 (by decide) (by decide) (by decide)
  dsimp only at hm
  have hcond : (4 : Nat) ≠ 3 ∧ (40 : ℚ) < 100 ∧ (100 : ℚ) > 1 / 10 ∧
      1 - 40 / 100 > (1 : ℚ) / 2 :=
    ⟨by decide, by norm_num, by norm_num, by norm_num⟩
  rw [if_pos hcond, if_pos hcond.1] at hm
  refine c3_accumulated_monotone.2.2 [(4, ⟨40, 5, 0, 0⟩)]
    ⟨[("A", 100)], [("A", 0)], [("A", 3)], 1⟩ "A" 100 0 3
    ⟨[("A", 40)], [("A", 100)], [("A", 4)], 1⟩ [⟨140, 40, 5⟩]
    (by decide) (by decide) (by decide) ?_
  simp only [ingestSeq, hm]
  norm_num [dset]

/-- Helper for C4: once an account is tracked with a zero accumulator and
the incoming samples never drop below the stored previous value, ingestion
succeeds, the accumulator stays 0, and every published total is that
poll's raw sample value. -/
theorem ingestSeq_nondecreasing (id : String) (steps : List (Nat × RawSample)) :
    ∀ (st : CoordState) (k : ℚ) (h : Nat),
      dget? st.prevKwh id = some k →
      dget? st.accumulatedKwh id = some 0 →
      dget? st.lastHour id = some h →
      List.Chain' (· ≤ ·) (k :: steps.map (fun x => x.2.kwh)) →
      ∃ st' rs, ingestSeq id st steps = some (st', rs) ∧
        dget? st'.accumulatedKwh id = some 0 ∧
        rs.map (fun r => r.kwh) = steps.map (fun x => x.2.kwh) := by
  induction steps with
  | nil =>
    intro st k h hp ha hh _
    exact ⟨st, [], rfl, ha, rfl⟩
  | cons step rest ih =>
    obtain ⟨H, s⟩ := step
    intro st k h hp ha hh hchain
    simp only [List.map_cons, List.chain'_cons] at hchain
    have hk : k ≤ s.kwh := hchain.1
    have hm := processAccount_tracked st H id s k 0 h hp ha hh
    have hnc : ¬(H ≠ h ∧ s.kwh < k ∧ k > (1 : ℚ) / 10 ∧ 1 - s.kwh / k > (1 : ℚ) / 2) :=
      fun hx => absurd hx.2.1 (not_lt.mpr hk)
    rw [if_neg hnc, if_neg hnc] at hm
    by_cases hH : H ≠ h
    · rw [if_pos hH] at hm
      obtain ⟨st', rs, hrec, hacc', hmap⟩ :=
        ih ⟨dset st.prevKwh id s.kwh, st.accumulatedKwh,
            dset st.lastHour id H, st.currentDay⟩ s.kwh H
          (dget?_dset_self st.prevKwh id s.kwh) ha
          (dget?_dset_self st.lastHour id H) hchain.2
      refine ⟨st', ⟨0 + s.kwh, s.kwh, s.cost⟩ :: rs, ?_, hacc', ?_⟩
      · rw [ingestSeq, hm]; dsimp only; rw [hrec]
      · simp [hmap]
    · rw [if_neg hH] at hm
      obtain ⟨st', rs, hrec, hacc', hmap⟩ :=
        ih ⟨dset st.prevKwh id s.kwh, st.accumulatedKwh,
            st.lastHour, st.currentDay⟩ s.kwh h
          (dget?_dset_self st.prevKwh id s.kwh) ha hh hchain.2
      refine ⟨st', ⟨0 + s.kwh, s.kwh, s.cost⟩ :: rs, ?_, hacc', ?_⟩
      · rw [ingestSeq, hm]; dsimp only; rw [hrec]
      · simp [hmap]

/-- C4: starting from an account's first-ever sample, a within-day run of
samples whose kwh values never decrease keeps the accumulator at 0 and
publishes each raw sample value as the total. -/
theorem c4_nondecreasing_total (st : CoordState) (id : String)
    (H0 : Nat) (s0 : RawSample) (steps : List (Nat × RawSample))
    (hfresh : dget? st.prevKwh id = none)
    (hchain : List.Chain' (· ≤ ·) (((H0, s0) :: steps).map (fun x => x.2.kwh))) :
    ∃ st' rs, ingestSeq id st ((H0, s0) :: steps) = some (st', rs) ∧
      dget? st'.accumulatedKwh id = some 0 ∧
      rs.map (fun r => r.kwh) = ((H0, s0) :: steps).map (fun x => x.2.kwh) := by
  have hm := processAccount_fresh st H0 id s0 hfresh
  simp only [List.map_cons] at hchain
  obtain ⟨st', rs, hrec, hacc', hmap⟩ :=
    ingestSeq_nondecreasing id steps
      ⟨dset (dset st.prevKwh id s0.kwh) id s0.kwh,
       dset st.accumulatedKwh id 0, dset st.lastHour id H0, st.currentDay⟩
      s0.kwh H0
      (dget?_dset_self (dset st.prevKwh id s0.kwh) id s0.kwh)
      (dget?_dset_self st.accumulatedKwh id 0)
      (dget?_dset_self st.lastHour id H0)
      hchain
  refine ⟨st', ⟨s0.kwh, s0.kwh, s0.cost⟩ :: rs, ?_, hacc', ?_⟩
  · rw [ingestSeq, hm]; dsimp only; rw [hrec]
  · simp [hmap]

/-- Witness for C4: a fresh account ingests 10 then 15 kWh; the
accumulator ends at 0 and the published totals are the raw values. -/
theorem c4_nondecreasing_total_witness :
    ∃ st' rs,
      ingestSeq "A" ⟨[], [], [], 1⟩ [(0, ⟨10, 1, 0, 0⟩), (1, ⟨15, 2, 0, 0⟩)] =
        some (st', rs) ∧
      dget? st'.accumulatedKwh "A" = some 0 ∧
      rs.map (fun r => r.kwh) =
        [((0 : Nat), (⟨10, 1, 0, 0⟩ : RawSample)),
         ((1 : Nat), (⟨15, 2, 0, 0⟩ : RawSample))].map (fun x => x.2.kwh) :=
  c4_nondecreasing_total ⟨[], [], [], 1⟩ "A" 0 ⟨10, 1, 0, 0⟩ [(1, ⟨15, 2, 0, 0⟩)]
    (by decide) (by simp [List.chain'_cons]; norm_num)

/-- Processing one account only ever writes that account's key in
`_prev_kwh_values`. -/
theorem processAccount_other_prev (st : CoordState) (H : Nat) (id : String)
    (s : RawSample) (st' : CoordState) (r : PublishedReading) (k : String)
    (hk : id ≠ k)
    (h : processAccount st H id s = some (st', r)) :
    dget? st'.prevKwh k = dget? st.prevKwh k := by
  cases hp : dget? st.prevKwh id with
  | none =>
    rw [processAccount_fresh st H id s hp] at h
    simp only [Option.some.injEq, Prod.mk.injEq] at h
    rw [← h.1]
    dsimp only
    rw [dget?_dset_ne _ _ _ _ hk, dget?_dset_ne _ _ _ _ hk]
  | some p =>
    cases ha : dget? st.accumulatedKwh id with
    | none => rw [processAccount_none_of_acc_none st H id s p hp ha] at h; cases h
    | some a =>
      cases hh : dget? st.lastHour id with
      | none =>
        rw [processAccount_none_of_lastHour_none st H id s p hp hh] at h; cases h
      | some hr =>
        rw [processAccount_tracked st H id s p a hr hp ha hh] at h
        simp only [Option.some.injEq, Prod.mk.injEq] at h
        rw [← h.1]
        dsimp only
        rw [dget?_dset_ne _ _ _ _ hk]

/-- The per-link loop ignores links with an empty account id: the run is
the same as on the filtered link list. -/
theorem processLinks_filter (H : Nat) (fetch : AccountLink → RawSample) :
    ∀ (links : List AccountLink) (st : CoordState)
      (data : List (String × PublishedReading)),
      processLinks H fetch links st data =
        processLinks H fetch (links.filter (fun l => l.account_id != "")) st data := by
  intro links
  induction links with
  | nil => intro st data; rfl
  | cons link rest ih =>
    intro st data
    by_cases hid : link.account_id = ""
    · simp only [List.filter_cons, hid, bne_self_eq_false, Bool.false_eq_true,
        if_false, processLinks, if_pos hid]
      exact ih st data
    · have hb : (link.account_id != "") = true := by simpa using hid
      simp only [List.filter_cons, hb, if_true, processLinks, if_neg hid]
      cases hpa : processAccount st H link.account_id (fetch link) with
      | none => rfl
      | some out =>
        obtain ⟨st', r⟩ := out
        exact ih st' (dset data link.account_id r)

/-- A successful per-link run never adds the empty key to the data dict
and never creates previous-value state for the empty account id. -/
theorem processLinks_no_empty (H : Nat) (fetch : AccountLink → RawSample) :
    ∀ (links : List AccountLink) (st : CoordState)
      (data : List (String × PublishedReading)) (st' : CoordState)
      (data' : List (String × PublishedReading)),
      processLinks H fetch links st data = some (st', data') →
      dget? data' "" = dget? data "" ∧
      dget? st'.prevKwh "" = dget? st.prevKwh "" := by
  intro links
  induction links with
  | nil =>
    intro st data st' data' h
    simp only [processLinks, Option.some.injEq, Prod.mk.injEq] at h
    exact ⟨by rw [← h.2], by rw [← h.1]⟩
  | cons link rest ih =>
    intro st data st' data' h
    by_cases hid : link.account_id = ""
    · rw [processLinks, if_pos hid] at h
      exact ih st data st' data' h
    · rw [processLinks, if_neg hid] at h
      cases hpa : processAccount st H link.account_id (fetch link) with
      | none => rw [hpa] at h; cases h
      | some out =>
        obtain ⟨stm, r⟩ := out
        rw [hpa] at h
        dsimp only at h
        obtain ⟨h1, h2⟩ := ih stm (dset data link.account_id r) st' data' h
        refine ⟨?_, ?_⟩
        · rw [h1, dget?_dset_ne _ _ _ _ hid]
        · rw [h2,
            processAccount_other_prev st H link.account_id (fetch link) stm r "" hid hpa]

/-- C10: a poll cycle behaves exactly as if links with a falsy (empty)
`account_id` were absent: the run equals the run on the filtered list, and
on success the published map has no entry for the empty id and no
previous-value state is created for it. -/
theorem c10_empty_account_skipped (st : CoordState) (D H : Nat)
    (links : List AccountLink) (fetch : AccountLink → RawSample) :
    pollCycle st D H links fetch =
      pollCycle st D H (links.filter (fun l => l.account_id != "")) fetch ∧
    ∀ st' data, pollCycle st D H links fetch = some (st', data) →
      dget? data "" = none ∧
      dget? st'.prevKwh "" = dget? st.prevKwh "" := by
  constructor
  · exact processLinks_filter H fetch links _ []
  · intro st' data h
    obtain ⟨h1, h2⟩ := processLinks_no_empty H fetch links _ [] st' data h
    refine ⟨by rw [h1]; rfl, ?_⟩
    rw [h2]
    by_cases hD : D ≠ st.currentDay
    · show dget? (if D ≠ st.currentDay then _ else st).prevKwh "" = _
      rw [if_pos hD]
    · show dget? (if D ≠ st.currentDay then _ else st).prevKwh "" = _
      rw [if_neg hD]

/-- Witness for C10: a cycle over one empty-id link and one real link
publishes only the real account and touches no state for the empty id. -/
theorem c10_empty_account_skipped_witness :
    dget? [("B", (⟨3, 3, 1⟩ : PublishedReading))] "" = none ∧
    dget? (⟨[("B", 3)], [("B", 0)], [("B", 0)], 1⟩ : CoordState).prevKwh "" =
      dget? (⟨[], [], [], 1⟩ : CoordState).prevKwh "" :=
  (c10_empty_account_skipped ⟨[], [], [], 1⟩ 1 0 [⟨"", none⟩, ⟨"B", none⟩]
    (fun _ => ⟨3, 1, 0, 0⟩)).2
    ⟨[("B", 3)], [("B", 0)], [("B", 0)], 1⟩ [("B", ⟨3, 3, 1⟩)]
    (by norm_num [pollCycle, processLinks, processAccount, dget?, dset]; decide)

/-! ## Response parsing (`EPBApiClient._extract_usage_data`, api.py 170-231)

A numeric leaf of the payload is only ever consumed as
`float(x.get(key, 0))`, whose outcome is: the key is absent (defaults to
0.0), it holds a value coercible to a float, or `float` raises
(`TypeError`/`ValueError`, caught by the method's `except` clause).
`NumField` records exactly those three outcomes. -/

inductive NumField where
  | missing
  | val (q : ℚ)
  | bad
deriving DecidableEq

/-- Python `float(x.get(key, 0))`: `none` is a raised coercion error. -/
def coerceFloat : NumField → Option ℚ
  | NumField.missing => some 0
  | NumField.val q => some q
  | NumField.bad => none

/-- One element of the payload's `data` list: either it lacks an `a`
object with `values`, or it has the two numeric fields
`pos_kwh`/`pos_wh_est_cost` inside `a.values`. -/
inductive UsageEntry where
  | noValues
  | withValues (pos_kwh pos_wh_est_cost : NumField)
deriving DecidableEq

/-- The payload shape read by `_extract_usage_data`: an optional
`interval_a_totals` object (fields `pos_kwh`, `pos_wh_est_cost`) and the
`data` list (an absent key behaves like the empty list, which the code
also treats as no data). -/
structure UsagePayload where
  interval_a_totals : Option (NumField × NumField)
  data : List UsageEntry
deriving DecidableEq

/-- The result dict of `_extract_usage_data`. -/
structure UsageResult where
  kwh : ℚ
  cost : ℚ
  daily_kwh : ℚ
  daily_cost : ℚ
deriving DecidableEq

/-- The loop `for entry in reversed(daily_data)` breaking at the first
entry with `a.values`: the last such entry of the list. -/
def findLastValues : List UsageEntry → Option (NumField × NumField)
  | [] => none
  | e :: rest =>
    match findLastValues rest with
    | some x => some x
    | none =>
      match e with
      | UsageEntry.withValues k c => some (k, c)
      | UsageEntry.noValues => none

/-- Lines 192-200: month-to-date totals.  `Except.error` carries the
partially filled result dict at the moment `float` raised. -/
def extractTotalsStep (p : UsagePayload) (r : UsageResult) :
    Except UsageResult UsageResult :=
  match p.interval_a_totals with
  | none => Except.ok r
  | some (kf, cf) =>
    match coerceFloat kf with
    | none => Except.error r
    | some kq =>
      let r1 := { r with kwh := kq }
      match coerceFloat cf with
      | none => Except.error r1
      | some cq => Except.ok { r1 with cost := cq }

/-- Lines 202-216: today's usage from the last entry with data. -/
def extractDailyStep (p : UsagePayload) (r : UsageResult) :
    Except UsageResult UsageResult :=
  match findLastValues p.data with
  | none => Except.ok r
  | some (kf, cf) =>
    match coerceFloat kf with
    | none => Except.error r
    | some kq =>
      let r1 := { r with daily_kwh := kq }
      match coerceFloat cf with
      | none => Except.error r1
      | some cq => Except.ok { r1 with daily_cost := cq }

/-- Lines 218-222: substitute daily values for absent/zero totals. -/
def fallbackStep (r : UsageResult) : UsageResult :=
  if r.kwh = 0 ∧ r.daily_kwh > 0 then
    { r with kwh := r.daily_kwh, cost := r.daily_cost }
  else r

/-- `_extract_usage_data`: the result dict starts all-zero; a coercion
error anywhere returns the dict as filled so far (the `except` clause at
lines 229-231); otherwise the daily scan and then the fallback run. -/
def extract_usage_data (p : UsagePayload) : UsageResult :=
  match extractTotalsStep p ⟨0, 0, 0, 0⟩ with
  | Except.error r => r
  | Except.ok r =>
    match extractDailyStep p r with
    | Except.error r => r
    | Except.ok r => fallbackStep r

/-! ## Token-expiry retry (`get_account_links` 127-168, `get_usage_data`
233-297)

Each element of the response list is the upstream's answer to one request
attempt; the expired-token answer makes the code clear its token,
re-authenticate (modelled as succeeding) and call itself again, consuming
the next response. -/

inductive LinksResp where
  | tokenExpired
  | ok (links : List AccountLink)
  | httpError (msg : String)
  | connError (msg : String)
deriving DecidableEq

inductive LinksOutcome where
  | success (links : List AccountLink)
  | failure (msg : String)
  | pending
deriving DecidableEq

/-- `get_account_links` run against a list of responses, counting
re-authentications.  A non-200 non-expired response and a connection
error both raise `EPBApiError` (failure); `pending` marks a run whose
recursion consumed every modelled response without returning. -/
def get_account_links_run : List LinksResp → Nat → LinksOutcome × Nat
  | [], n => (LinksOutcome.pending, n)
  | LinksResp.tokenExpired :: rest, n => get_account_links_run rest (n + 1)
  | LinksResp.ok links :: _, n => (LinksOutcome.success links, n)
  | LinksResp.httpError m :: _, n => (LinksOutcome.failure m, n)
  | LinksResp.connError m :: _, n => (LinksOutcome.failure m, n)

inductive UsageResp where
  | tokenExpired
  | ok (payload : UsagePayload)
  | httpError (msg : String)
  | connError (msg : String)
deriving DecidableEq

inductive UsageOutcome where
  | value (r : UsageResult)
  | raised (msg : String)
  | pending
deriving DecidableEq

/-- The all-zero usage record returned on an absorbed failure. -/
def zeroUsage : UsageResult := ⟨0, 0, 0, 0⟩

/-- `get_usage_data` run against a list of responses.  A non-200
non-expired response raises `EPBApiError` inside the `try`, which the
method's own `except Exception` turns into the zero record; a
connection-level `ClientError` is re-raised as `EPBApiError` from the
`except ClientError` clause and so propagates (`raised`).

The expired-token case models the recursive call at api.py line 281,
which sits inside the calling frame's `try`: a value the retry returns is
returned unchanged, while an exception the retry raises is always an
`EPBApiError` (the retried frame's own `except ClientError` wraps any raw
`ClientError` before it escapes), so it is caught by the calling frame's
`except Exception` and becomes the zero record.  Only a `ClientError` on
a first, non-retried attempt propagates out of the method. -/
def get_usage_data_run : List UsageResp → UsageOutcome
  | [] => UsageOutcome.pending
  | UsageResp.tokenExpired :: rest =>
    match get_usage_data_run rest with
    | UsageOutcome.value v => UsageOutcome.value v
    | UsageOutcome.raised _ => UsageOutcome.value zeroUsage
    | UsageOutcome.pending => UsageOutcome.pending
  | UsageResp.ok p :: _ => UsageOutcome.value (extract_usage_data p)
  | UsageResp.httpError _ :: _ => UsageOutcome.value zeroUsage
  | UsageResp.connError m :: _ => UsageOutcome.raised m

/-! ## Claim theorems: the upstream client -/

/-- C5 counterexample: the claim says a second consecutive expired-token
response surfaces a failure and the retry is bounded to one.  In the code
the expired-token branch re-authenticates and calls the method again with
no counter, so two expired responses followed by a success yield a
successful call with two re-authentications, not a surfaced failure. -/
theorem c5_counterexample_second_expired_retries :
    get_account_links_run
      [LinksResp.tokenExpired, LinksResp.tokenExpired, LinksResp.ok []] 0 =
      (LinksOutcome.success [], 2) := by decide

/-- C5 amended: every expired-token response triggers one
re-authentication and an unconditional retry, recursively and without
bound.  For `get_account_links`, k consecutive expired-token responses
produce k re-authentications and the call's outcome is that of the first
non-expired response.  For `get_usage_data` the retry is likewise
unbounded: k consecutive expired-token responses followed by a success
still succeed with that response's parsed record, and a transport failure
on a retried attempt is absorbed by the calling frame's
`except Exception` into the zero record.  In neither method does a second
consecutive expired-token response surface a failure. -/
theorem c5_amended_unbounded_retry :
    (∀ (k n : Nat) (rest : List LinksResp),
        get_account_links_run (List.replicate k LinksResp.tokenExpired ++ rest) n =
          get_account_links_run rest (n + k)) ∧
    (∀ (k : Nat) (p : UsagePayload) (rest : List UsageResp),
        get_usage_data_run
            (List.replicate k UsageResp.tokenExpired ++ (UsageResp.ok p :: rest)) =
          UsageOutcome.value (extract_usage_data p)) ∧
    (∀ (k : Nat) (m : String) (rest : List UsageResp),
        get_usage_data_run
            (List.replicate (k + 1) UsageResp.tokenExpired ++
              (UsageResp.connError m :: rest)) =
          UsageOutcome.value zeroUsage) := by
  refine ⟨?_, ?_, ?_⟩
  · intro k n rest
    induction k generalizing n with
    | zero => simp
    | succ k ih =>
      rw [List.replicate_succ, List.cons_append]
      show get_account_links_run
        (List.replicate k LinksResp.tokenExpired ++ rest) (n + 1) = _
      rw [ih (n + 1)]
      congr 1
      omega
  · intro k p rest
    induction k with
    | zero => simp [get_usage_data_run]
    | succ k ih =>
      rw [List.replicate_succ, List.cons_append]
      simp only [get_usage_data_run]
      rw [ih]
  · intro k m rest
    induction k with
    | zero =>
      rw [List.replicate_succ, List.cons_append]
      simp [get_usage_data_run]
    | succ k ih =>
      rw [List.replicate_succ, List.cons_append]
      have heq : get_usage_data_run (UsageResp.tokenExpired ::
          (List.replicate (k + 1) UsageResp.tokenExpired ++
            (UsageResp.connError m :: rest))) =
          match get_usage_data_run (List.replicate (k + 1) UsageResp.tokenExpired ++
              (UsageResp.connError m :: rest)) with
          | UsageOutcome.value v => UsageOutcome.value v
          | UsageOutcome.raised _ => UsageOutcome.value zeroUsage
          | UsageOutcome.pending => UsageOutcome.pending := rfl
      rw [heq, ih]

/-- C6 counterexample: the claim says every non-expired-token failure,
connection-level transport failures included, yields the zero-valued
sample.  A connection error instead re-raises `EPBApiError` out of the
`except ClientError` clause, so the call raises rather than returning the
zero record. -/
theorem c6_counterexample_transport_raises :
    get_usage_data_run [UsageResp.connError "boom"] = UsageOutcome.raised "boom" ∧
    get_usage_data_run [UsageResp.connError "boom"] ≠
      UsageOutcome.value zeroUsage := by
  exact ⟨rfl, by decide⟩

/-- C6 amended: a non-2xx non-expired response makes `get_usage_data`
return the zero-valued sample, and a poll cycle in which one account's
fetch produced the zero sample publishes a zero reading for it while the
other account publishes normally. -/
theorem c6_amended_nonexpired_failure_zero :
    (∀ (m : String) (rest : List UsageResp),
        get_usage_data_run (UsageResp.httpError m :: rest) =
          UsageOutcome.value zeroUsage) ∧
    pollCycle ⟨[], [], [], 1⟩ 1 0 [⟨"A", none⟩, ⟨"B", none⟩]
        (fun l => if l.account_id = "A" then ⟨0, 0, 0, 0⟩ else ⟨42, 7, 0, 0⟩) =
      some (⟨[("A", 0), ("B", 42)], [("A", 0), ("B", 0)], [("A", 0), ("B", 0)], 1⟩,
        [("A", ⟨0, 0, 0⟩), ("B", ⟨42, 42, 7⟩)]) := by
  refine ⟨fun m rest => rfl, ?_⟩
  norm_num [pollCycle, processLinks, processAccount, dget?, dset,
    show ("A" : String) ≠ "" by decide, show ("B" : String) ≠ "" by decide,
    show ("B" : String) ≠ "A" by decide, show ("A" : String) ≠ "B" by decide]

/-- C9 counterexample: the claim says that whenever the resulting kwh
total is 0 while daily_kwh is positive, the daily values are substituted
as the totals.  If the daily cost field fails to coerce, the `except`
clause returns the partial dict after `daily_kwh` was set but before the
fallback ran: kwh stays 0 while daily_kwh is 5. -/
theorem c9_counterexample_no_substitution :
    (extract_usage_data
      ⟨none, [UsageEntry.withValues (NumField.val 5) NumField.bad]⟩).kwh = 0 ∧
    (extract_usage_data
      ⟨none, [UsageEntry.withValues (NumField.val 5) NumField.bad]⟩).daily_kwh > 0 ∧
    (extract_usage_data
      ⟨none, [UsageEntry.withValues (NumField.val 5) NumField.bad]⟩).kwh ≠
      (extract_usage_data
        ⟨none, [UsageEntry.withValues (NumField.val 5) NumField.bad]⟩).daily_kwh := by
  refine ⟨rfl, ?_, ?_⟩ <;> decide

/-- Bool flag: the leaf coerces without raising. -/
def NumField.parses : NumField → Bool
  | NumField.bad => false
  | _ => true

/-- The value `float(x.get(key, 0))` produces when it does not raise. -/
def fieldVal : NumField → ℚ
  | NumField.missing => 0
  | NumField.val q => q
  | NumField.bad => 0

/-- Every numeric field the extraction actually touches coerces. -/
def payloadParses (p : UsagePayload) : Bool :=
  (match p.interval_a_totals with
   | none => true
   | some (kf, cf) => NumField.parses kf && NumField.parses cf) &&
  (match findLastValues p.data with
   | none => true
   | some (kf, cf) => NumField.parses kf && NumField.parses cf)

theorem coerceFloat_of_parses (f : NumField) (hf : NumField.parses f = true) :
    coerceFloat f = some (fieldVal f) := by
  cases f <;> simp_all [NumField.parses, fieldVal, coerceFloat]

/-- C9 amended: `_extract_usage_data` never raises; on payloads whose
touched numeric fields all coerce, missing fields and an absent totals
object default to 0, the daily values come from the last `data` entry
with `a.values`, and the daily values are substituted as the totals
exactly when kwh is 0 and daily_kwh is positive (`fallbackStep`).  When a
field fails to coerce the remainder of the extraction, the substitution
included, is skipped and the partial result is returned. -/
theorem c9_amended_extraction (p : UsagePayload) (hp : payloadParses p = true) :
    extract_usage_data p =
      fallbackStep
        ⟨(match p.interval_a_totals with
          | none => 0
          | some (kf, _) => fieldVal kf),
         (match p.interval_a_totals with
          | none => 0
          | some (_, cf) => fieldVal cf),
         (match findLastValues p.data with
          | none => 0
          | some (kf, _) => fieldVal kf),
         (match findLastValues p.data with
          | none => 0
          | some (_, cf) => fieldVal cf)⟩ := by
  obtain ⟨tot, dat⟩ := p
  cases tot with
  | none =>
    cases hfd : findLastValues dat with
    | none =>
      simp [extract_usage_data, extractTotalsStep, extractDailyStep, hfd]
    | some pr =>
      obtain ⟨kf, cf⟩ := pr
      simp only [payloadParses, hfd, Bool.and_eq_true, Bool.true_and] at hp
      simp [extract_usage_data, extractTotalsStep, extractDailyStep, hfd,
        coerceFloat_of_parses kf hp.1, coerceFloat_of_parses cf hp.2]
  | some prt =>
    obtain ⟨tkf, tcf⟩ := prt
    cases hfd : findLastValues dat with
    | none =>
      simp only [payloadParses, hfd, Bool.and_eq_true, Bool.and_true] at hp
      simp [extract_usage_data, extractTotalsStep, extractDailyStep, hfd,
        coerceFloat_of_parses tkf hp.1, coerceFloat_of_parses tcf hp.2]
    | some pr =>
      obtain ⟨kf, cf⟩ := pr
      simp only [payloadParses, hfd, Bool.and_eq_true] at hp
      simp [extract_usage_data, extractTotalsStep, extractDailyStep, hfd,
        coerceFloat_of_parses tkf hp.1.1, coerceFloat_of_parses tcf hp.1.2,
        coerceFloat_of_parses kf hp.2.1, coerceFloat_of_parses cf hp.2.2]

/-- Witness for the amended C9: a zero totals object with a parsing daily
entry (5 kWh, cost 2) has the daily values substituted as the totals. -/
theorem c9_amended_extraction_witness :
    extract_usage_data ⟨some (NumField.val 0, NumField.missing),
      [UsageEntry.withValues (NumField.val 5) (NumField.val 2)]⟩ =
      ⟨5, 2, 5, 2⟩ := by
  rw [c9_amended_extraction _ (by decide)]
  decide

end EPB
